import Mathlib

/-!
Verification development for the SafeCompile static-analysis core.

This file shallowly embeds the core of the repository:
  * `lexer.py` (`tokenize_code` and the `token_patterns` regex alternation),
  * `parser_custom.py` (the `Parser` class: tolerant recursive descent,
    inline insecure-call detection),
  * `analyze.py` (`_analyze_arithmetic_operations`, `_deduplicate_findings`),
and proves the spec's claims about them.

Modeling conventions:
  * Python strings are modeled as `List Char`; the regex character classes
    `\w`, `\s`, `\d`, `[a-zA-Z]` are modeled by their ASCII meaning.
  * Python exceptions are modeled by `Except PErr`; the state at the point of
    the raise is retained for reasoning (Python would unwind it).
  * Recursive parser procedures take explicit fuel; running out of fuel is the
    distinct error `PErr.outOfFuel`, never confused with a Python exception.
-/

namespace SafeCompile

/-! ## Lexer (`lexer.py`) -/

/-- Token kinds, the named groups of `token_patterns` in `lexer.py`. -/
inductive Kind where
  | KEYWORD | IDENTIFIER | NUMBER | CHARLIT | STRINGLIT | OPERATOR
  | SEPARATOR | PREPROCESSOR | COMMENT | WHITESPACE | UNKNOWN
  deriving DecidableEq, Repr

/-- The group name of a kind, as `match.lastgroup` returns it. -/
def Kind.name : Kind → String
  | .KEYWORD => "KEYWORD" | .IDENTIFIER => "IDENTIFIER" | .NUMBER => "NUMBER"
  | .CHARLIT => "CHAR" | .STRINGLIT => "STRING" | .OPERATOR => "OPERATOR"
  | .SEPARATOR => "SEPARATOR" | .PREPROCESSOR => "PREPROCESSOR"
  | .COMMENT => "COMMENT" | .WHITESPACE => "WHITESPACE" | .UNKNOWN => "UNKNOWN"

/-- ASCII model of the regex class `\w`. -/
def isWordChar (c : Char) : Bool := c.isAlphanum || c = '_'

/-- ASCII model of the regex class `\s`. -/
def isSpaceChar (c : Char) : Bool :=
  c = ' ' || c = '\t' || c = '\n' || c = '\r' || c = '\x0b' || c = '\x0c'

/-- ASCII model of `[a-zA-Z_]`, the first character of an identifier. -/
def isIdentStart (c : Char) : Bool := c.isAlpha || c = '_'

/-- ASCII model of `[0-9a-fA-F]`. -/
def isHexChar (c : Char) : Bool :=
  c.isDigit || ('a' ≤ c && c ≤ 'f') || ('A' ≤ c && c ≤ 'F')

/-- Length of the maximal prefix of `cs` whose characters satisfy `p`
(the greedy repetition of a one-character class). -/
def runLen (p : Char → Bool) : List Char → Nat
  | [] => 0
  | c :: cs => if p c then runLen p cs + 1 else 0

/-- `pre` is a literal prefix of `cs`. -/
def startsWithL : List Char → List Char → Bool
  | [], _ => true
  | _ :: _, [] => false
  | p :: ps, c :: cs => p = c && startsWithL ps cs

/-- Case-insensitive variant of `startsWithL` (regex `re.IGNORECASE`). -/
def startsWithCI : List Char → List Char → Bool
  | [], _ => true
  | _ :: _, [] => false
  | p :: ps, c :: cs => p.toLower = c.toLower && startsWithCI ps cs

/-- `String.data` shorthand for writing `List Char` literals. -/
def cL (s : String) : List Char := s.data

/-- A word boundary `\b` holds before the current position: the previously
consumed character (if any) is not a word character. -/
def noWordBefore : Option Char → Bool
  | none => true
  | some c => !isWordChar c

/-- A word boundary `\b` holds after a lexeme of length `n`: the character at
position `n` (if any) is not a word character. -/
def boundaryAfter (n : Nat) (cs : List Char) : Bool :=
  match cs.drop n with
  | [] => true
  | c :: _ => !isWordChar c

/-- `COMMENT`: `//[^\n]*|/\*[\s\S]*?\*/`. For a block comment the lazy body
stops at the first `*/`; an unterminated block comment does not match. -/
def findStarSlash : List Char → Option Nat
  | '*' :: '/' :: _ => some 2
  | _ :: rest => (findStarSlash rest).map (· + 1)
  | [] => none

def matchComment (cs : List Char) : Option Nat :=
  if startsWithL (cL "//") cs then
    some (2 + runLen (fun c => c ≠ '\n') (cs.drop 2))
  else if startsWithL (cL "/*") cs then
    (findStarSlash (cs.drop 2)).map (2 + ·)
  else none

/-- The preprocessor directive words, in the source's alternation order. -/
def directives : List (List Char) :=
  [cL "include", cL "define", cL "ifdef", cL "ifndef", cL "endif",
   cL "pragma", cL "undef", cL "elif", cL "else"]

/-- `PREPROCESSOR`: `#\s*(include|define|...)\b.*`. The greedy `\s*` takes all
whitespace (directive words cannot begin with whitespace, so no backtracking
position other than the maximal one can succeed); `.*` runs to the newline. -/
def matchPreproc (cs : List Char) : Option Nat :=
  match cs with
  | '#' :: rest =>
    let ns := runLen isSpaceChar rest
    let afterWs := rest.drop ns
    match directives.find? (fun d =>
        startsWithL d afterWs && boundaryAfter d.length afterWs) with
    | some d =>
        some (1 + ns + d.length + runLen (fun c => c ≠ '\n') (afterWs.drop d.length))
    | none => none
  | _ => none

/-- The keyword list of `token_patterns`, in the source's alternation order. -/
def keywordList : List (List Char) :=
  [cL "alignas", cL "alignof", cL "and", cL "and_eq", cL "asm", cL "auto",
   cL "bitand", cL "bitor", cL "bool", cL "break", cL "case", cL "catch",
   cL "char", cL "char16_t", cL "char32_t", cL "class", cL "compl",
   cL "const", cL "constexpr", cL "const_cast", cL "continue", cL "decltype",
   cL "default", cL "delete", cL "do", cL "double", cL "dynamic_cast",
   cL "else", cL "enum", cL "explicit", cL "export", cL "extern", cL "false",
   cL "float", cL "for", cL "friend", cL "goto", cL "if", cL "inline",
   cL "int", cL "long", cL "mutable", cL "namespace", cL "new",
   cL "noexcept", cL "nullptr", cL "operator", cL "or", cL "or_eq",
   cL "private", cL "protected", cL "public", cL "register",
   cL "reinterpret_cast", cL "return", cL "short", cL "signed", cL "sizeof",
   cL "static", cL "static_assert", cL "static_cast", cL "struct",
   cL "switch", cL "template", cL "this", cL "thread_local", cL "throw",
   cL "true", cL "try", cL "typedef", cL "typeid", cL "typename", cL "union",
   cL "unsigned", cL "using", cL "virtual", cL "void", cL "volatile",
   cL "wchar_t", cL "while", cL "xor", cL "xor_eq"]

/-- `KEYWORD`: `\b(alignas|...)\b`. The first alternative that matches with a
word boundary on both sides wins. -/
def matchKeyword (prev : Option Char) (cs : List Char) : Option Nat :=
  if noWordBefore prev then
    (keywordList.find? (fun k =>
      startsWithL k cs && boundaryAfter k.length cs)).map List.length
  else none

/-- `IDENTIFIER`: `\b[a-zA-Z_][a-zA-Z0-9_]*\b`; the trailing boundary is
automatic after the greedy run of word characters. -/
def matchIdent (prev : Option Char) (cs : List Char) : Option Nat :=
  if noWordBefore prev then
    match cs with
    | c :: _ => if isIdentStart c then some (runLen isWordChar cs) else none
    | [] => none
  else none

/-- The exponent part `[eE][-+]?\d+` of the `NUMBER` pattern (fewer digits
than the maximum would leave a following digit, failing the trailing `\b`,
so only the greedy run is viable). -/
def expLen (cs : List Char) : Option Nat :=
  match cs with
  | c :: rest =>
    if c = 'e' || c = 'E' then
      match rest with
      | s :: rest2 =>
        if s = '+' || s = '-' then
          let d := runLen Char.isDigit rest2
          if d > 0 then some (2 + d) else none
        else
          let d := runLen Char.isDigit rest
          if d > 0 then some (1 + d) else none
      | [] => none
    else none
  | [] => none

/-- The fractional part `(\.\d+)?` of the `NUMBER` pattern. -/
def fracLen (cs : List Char) : Option Nat :=
  match cs with
  | '.' :: rest =>
    let d := runLen Char.isDigit rest
    if d > 0 then some (1 + d) else none
  | _ => none

/-- `NUMBER`: `0x[0-9a-fA-F]+|\b\d+(\.\d+)?([eE][-+]?\d+)?\b`. The hex
alternative has no word boundaries. For the decimal alternative, the optional
groups backtrack in the order (frac, exp), (frac), (exp), (neither); within
each group only the greedy digit run can satisfy the trailing `\b`. -/
def matchNumber (prev : Option Char) (cs : List Char) : Option Nat :=
  let hex :=
    match cs with
    | '0' :: 'x' :: rest =>
      let h := runLen isHexChar rest
      if h > 0 then some (2 + h) else none
    | _ => none
  match hex with
  | some n => some n
  | none =>
    if noWordBefore prev then
      let d := runLen Char.isDigit cs
      if d > 0 then
        let fl := fracLen (cs.drop d)
        let cand : List Nat :=
          match fl with
          | some f =>
            (match expLen (cs.drop (d + f)) with
             | some e => [d + f + e, d + f]
             | none => [d + f]) ++
            (match expLen (cs.drop d) with
             | some e => [d + e, d]
             | none => [d])
          | none =>
            match expLen (cs.drop d) with
            | some e => [d + e, d]
            | none => [d]
        (cand.find? (fun n => boundaryAfter n cs))
      else none
    else none

/-- `CHAR`: `'(\\.|[^\\'])'`; `.` excludes the newline, the negated class
excludes only backslash and quote. -/
def matchCharLit : List Char → Option Nat
  | '\'' :: '\\' :: c :: '\'' :: _ => if c = '\n' then none else some 4
  | '\'' :: '\\' :: _ => none
  | '\'' :: c :: '\'' :: _ => if c = '\'' then none else some 3
  | _ => none

/-- Body of `STRING` after the opening quote: `(\\.|[^\\"])*"`. A backslash
before a newline (or at the end) kills the match; an unterminated string
does not match. -/
def strBody : List Char → Option Nat
  | '"' :: _ => some 1
  | '\\' :: c :: rest => if c = '\n' then none else (strBody rest).map (· + 2)
  | '\\' :: [] => none
  | _ :: rest => (strBody rest).map (· + 1)
  | [] => none

def matchStringLit : List Char → Option Nat
  | '"' :: rest => (strBody rest).map (· + 1)
  | _ => none

/-- The operator alternatives of `token_patterns`, in source order. -/
def operatorList : List (List Char) :=
  [cL ">>=", cL "<<=", cL "++", cL "--", cL "->*", cL "->", cL "==",
   cL "!=", cL ">=", cL "<=", cL "&&", cL "||", cL "<<", cL ">>", cL "::",
   cL "+=", cL "-=", cL "*=", cL "/=", cL "%=", cL "&=", cL "|=", cL "^=",
   cL "~", cL "!", cL "=", cL "+", cL "-", cL "*", cL "/", cL "%", cL "<",
   cL ">", cL "^", cL "&", cL "|", cL "?", cL ":"]

def matchOperator (cs : List Char) : Option Nat :=
  (operatorList.find? (fun o => startsWithL o cs)).map List.length

/-- `SEPARATOR`: `[{}\[\]();,\.]` — note that `[` and `]` are separators. -/
def matchSeparator : List Char → Option Nat
  | c :: _ =>
    if c = '\x7b' || c = '\x7d' || c = '[' || c = ']' || c = '(' || c = ')' ||
       c = ';' || c = ',' || c = '.' then some 1 else none
  | [] => none

/-- `WHITESPACE`: `\s+` (greedy). -/
def matchWhitespace (cs : List Char) : Option Nat :=
  let n := runLen isSpaceChar cs
  if n > 0 then some n else none

/-- One step of `token_regex.finditer`: try the alternatives in the order of
`token_patterns`; the final fallback `UNKNOWN` (`.`) consumes one character.
A newline never reaches the fallback (it is whitespace), so on nonempty input
some alternative always matches and its lexeme is nonempty. -/
def nextLex (prev : Option Char) (cs : List Char) : Kind × Nat :=
  match matchComment cs with
  | some n => (.COMMENT, n)
  | none =>
  match matchPreproc cs with
  | some n => (.PREPROCESSOR, n)
  | none =>
  match matchKeyword prev cs with
  | some n => (.KEYWORD, n)
  | none =>
  match matchIdent prev cs with
  | some n => (.IDENTIFIER, n)
  | none =>
  match matchNumber prev cs with
  | some n => (.NUMBER, n)
  | none =>
  match matchCharLit cs with
  | some n => (.CHARLIT, n)
  | none =>
  match matchStringLit cs with
  | some n => (.STRINGLIT, n)
  | none =>
  match matchOperator cs with
  | some n => (.OPERATOR, n)
  | none =>
  match matchSeparator cs with
  | some n => (.SEPARATOR, n)
  | none =>
  match matchWhitespace cs with
  | some n => (.WHITESPACE, n)
  | none => (.UNKNOWN, 1)

/-- The scanner: repeatedly take the next match and continue after it. The
previous character (for `\b`) is the last character of the previous lexeme.
Fuel `= length of the input` always suffices since every step consumes at
least one character. -/
def scanAux : Nat → Option Char → List Char → List (Kind × List Char)
  | 0, _, _ => []
  | fuel + 1, prev, cs =>
    match cs with
    | [] => []
    | c :: rest =>
      ((nextLex prev (c :: rest)).1,
        (c :: rest).take (nextLex prev (c :: rest)).2) ::
        scanAux fuel
          (match ((c :: rest).take (nextLex prev (c :: rest)).2).getLast? with
           | some c2 => some c2
           | none => prev)
          ((c :: rest).drop (nextLex prev (c :: rest)).2)

/-- All matches of `token_regex.finditer` over the input, in order. -/
def scan (cs : List Char) : List (Kind × List Char) :=
  scanAux cs.length none cs

/-- The concatenation of the lexemes of a match list. -/
def joinLex (ms : List (Kind × List Char)) : List Char :=
  ms.foldr (fun m acc => m.2 ++ acc) []

/-- A token as `tokenize_code` emits it: `(kind, value, line_num)`. -/
structure Tok where
  kind : Kind
  value : String
  line : Nat
  deriving DecidableEq, Repr

/-- `value.count('\n')`: the number of newline characters of a lexeme. -/
def countNl (cs : List Char) : Nat := (cs.filter (· = '\n')).length

/-- The loop body of `tokenize_code`: emit each non-whitespace, non-comment
match at the current line number, then add the newlines of the match. -/
def withLines : Nat → List (Kind × List Char) → List Tok
  | _, [] => []
  | ln, (k, v) :: ms =>
    (if k ≠ .WHITESPACE ∧ k ≠ .COMMENT then [⟨k, ⟨v⟩, ln⟩] else []) ++
      withLines (ln + countNl v) ms

/-- `tokenize_code` from `lexer.py`. -/
def tokenize_code (code : List Char) : List Tok :=
  withLines 1 (scan code)

/-- The line-annotation of a match list, before filtering: each match is
paired with `1 +` the newline count of everything consumed before it. Used
to state the line-number property of `tokenize_code`. -/
def linesSpec : Nat → List (Kind × List Char) → List (Kind × List Char × Nat)
  | _, [] => []
  | ln, (k, v) :: ms => (k, v, ln) :: linesSpec (ln + countNl v) ms

/-! ## Parse tree (`parse_tree_node.py`) -/

/-- `ParseTreeNode`: grammar-construct or token-kind name, optional token
value, terminal flag, ordered children. -/
inductive PTree where
  | mk (name : String) (value : Option String) (isTerminal : Bool)
       (children : List PTree)

def PTree.name : PTree → String | .mk n _ _ _ => n
def PTree.value : PTree → Option String | .mk _ v _ _ => v
def PTree.isTerminal : PTree → Bool | .mk _ _ b _ => b
def PTree.children : PTree → List PTree | .mk _ _ _ cs => cs

/-- A terminal node for a consumed token, as `advance` and `match` build it:
`ParseTreeNode(kind, value=lexeme, is_terminal=True)`. -/
def termNode (t : Tok) : PTree := .mk t.kind.name (some t.value) true []

/-- Number of nodes named `nm` in a forest, to a depth bound (the bound only
needs to exceed the tree height; 100 is ample for every tree in this file). -/
def countNamedF : Nat → String → List PTree → Nat
  | 0, _, _ => 0
  | fuel + 1, nm, ts =>
    ts.foldl (fun acc t =>
      acc + (if t.name = nm then 1 else 0) + countNamedF fuel nm t.children) 0

/-! ## Parser (`parser_custom.py`)

The Python parser signals failure of a construct by returning `None` and
records warnings; it can also raise `TypeError` at two places where an
f-string subscripts `self.current_token` without a guard:
  * `expect` (line 84): the replacement field `{self.current_token[1]}`
    inside the `got ... ('...' if ... else '')` text is evaluated
    unconditionally, so a failed expectation at end of input raises;
  * `parse_statement` (line 298): the fall-through warning subscripts
    `self.current_token` which can be `None`.
Both are modeled by `PErr.typeError`. `PErr.outOfFuel` is an artifact of the
fuel-indexed embedding and corresponds to no Python behavior. -/

inductive PErr where
  | typeError | outOfFuel
  deriving DecidableEq, Repr

/-- The line argument Python passes to `warn`: an `int`, the string `"EOF"`,
or `None` (rendered `"None"` by the f-string). -/
inductive LineRef where
  | ln (n : Nat) | eofStr | noneVal
  deriving DecidableEq, Repr

def LineRef.render : LineRef → String
  | .ln n => toString n
  | .eofStr => "EOF"
  | .noneVal => "None"

/-- An element of `self.insecure_function_issues`: the dict built by
`check_insecure_function`, keyed `function`/`line`/`fix`/`cwe`/`source`. -/
structure Issue where
  function : String
  line : Nat
  fix : String
  cwe : String
  source : String
  deriving DecidableEq, Repr

/-- The mutable parser state: token list, cursor, current token, accumulated
warnings (each already formatted `"line: message"`), accumulated issues. -/
structure ParserSt where
  tokens : List Tok
  idx : Nat
  current : Option Tok
  warnings : List String
  issues : List Issue
  deriving DecidableEq, Repr

/-- `Parser.insecure_functions`. -/
def insecureFunctions : List String :=
  ["gets", "strcpy", "strcat", "scanf", "sprintf", "system",
   "eval", "popen", "vsprintf", "printf", "malloc", "realloc", "calloc"]

/-- `Parser.insecure_function_info`: name ↦ (fix suggestion, CWE id). -/
def insecureFunctionInfo : List (String × String × String) :=
  [("gets", "use fgets()", "CWE-120"),
   ("strcpy", "use strncpy() with size limit", "CWE-120"),
   ("strcat", "use strncat() with size limit", "CWE-120"),
   ("scanf", "specify field width", "CWE-120"),
   ("sprintf", "use snprintf()", "CWE-120"),
   ("system", "avoid executing external commands", "CWE-78"),
   ("eval", "avoid code injection", "CWE-94"),
   ("popen", "avoid executing external commands", "CWE-78"),
   ("vsprintf", "use vsnprintf()", "CWE-120"),
   ("printf", "format string literal", "CWE-134"),
   ("malloc", "check return value for NULL", "CWE-399"),
   ("realloc", "check return value for NULL", "CWE-399"),
   ("calloc", "check return value for NULL", "CWE-399")]

/-- `Parser.advance`: move the cursor; returns the parse-tree node of the
consumed token, or `none` past the end. (The state is destructured once and
rebuilt field by field, which is also what keeps its evaluation linear.) -/
def advance (s : ParserSt) : Option PTree × ParserSt :=
  match s with
  | ⟨tokens, idx, _cur, warnings, issues⟩ =>
    match tokens.get? idx with
    | some t => (some (termNode t), ⟨tokens, idx + 1, some t, warnings, issues⟩)
    | none => (none, ⟨tokens, idx, none, warnings, issues⟩)

/-- `Parser.warn`: append `f"{line_num}: {message}"`. -/
def warnP (msg : String) (l : LineRef) (s : ParserSt) : ParserSt :=
  match s with
  | ⟨tokens, idx, cur, warnings, issues⟩ =>
    ⟨tokens, idx, cur, warnings ++ [l.render ++ ": " ++ msg], issues⟩

/-- The line `self.tokens[-1][2] if self.tokens else "EOF"`. -/
def lastTokLine (s : ParserSt) : LineRef :=
  match s.tokens.getLast? with
  | some t => .ln t.line
  | none => .eofStr

/-- `Parser.match`: consume the current token if it has the expected kind
(and value, when given); return its node, else `none` without advancing. -/
def pmatch (k : Kind) (v : Option String) (s : ParserSt) :
    Option PTree × ParserSt :=
  match s with
  | ⟨tokens, idx, cur, warnings, issues⟩ =>
    match cur with
    | some t =>
      if t.kind = k ∧ (v = none ∨ v = some t.value) then
        (some (termNode t), (advance ⟨tokens, idx, cur, warnings, issues⟩).2)
      else (none, ⟨tokens, idx, cur, warnings, issues⟩)
    | none => (none, ⟨tokens, idx, cur, warnings, issues⟩)

/-- `Parser.expect`: `match`, else record a syntax warning. The warning
f-string contains the unguarded field `{self.current_token[1]}` inside
literal text, so when the current token is `None` the f-string raises
`TypeError` before `warn` is called. -/
def expect (k : Kind) (v : Option String) (errMsg : String) (s : ParserSt) :
    ParserSt × Except PErr (Option PTree) :=
  match pmatch k v s with
  | (some n, s2) => (s2, .ok (some n))
  | (none, s2) =>
    match s2.current with
    | none => (s2, .error .typeError)
    | some t =>
      let msg := "❌ Error: " ++ errMsg ++ ". Expected " ++ k.name ++
        (match v with | some vv => " (" ++ vv ++ ")" | none => "") ++
        ", got " ++ t.kind.name ++ " (\x27" ++ t.value ++
        "\x27 if self.current_token and len(self.current_token) > 1 else \x27\x27)"
      (warnP msg (.ln t.line) s2, .ok none)

/-- `Parser.skip_whitespace_and_comments`. -/
def skipWC : Nat → ParserSt → ParserSt × Except PErr Unit
  | 0, s => (s, .error .outOfFuel)
  | fuel + 1, s =>
    match s.current with
    | some t =>
      if t.kind = .WHITESPACE then skipWC fuel (advance s).2
      else if t.kind = .PREPROCESSOR then
        skipWC fuel
          (advance (warnP ("📌 Skipping preprocessor: " ++ t.value)
            (.ln t.line) s)).2
      else if t.kind = .COMMENT then skipWC fuel (advance s).2
      else (s, .ok ())
    | none => (s, .ok ())

/-- Keywords that may start a declaration statement (`parse_statement`);
note the list has no `void`, unlike the top-level list. -/
def declKeywords : List String :=
  ["int", "char", "float", "double", "long", "short", "unsigned", "signed"]

/-- Keywords that may start a function definition (`parse`). -/
def topKeywords : List String :=
  ["int", "void", "char", "float", "double", "long", "short", "unsigned",
   "signed"]

/-- Statement terminators for `parse_expression`. -/
def exprTerminators : List String := [";", "\x7b", "\x7d", ")", "]", ","]

mutual

/-- `Parser.parse_function_definition`. -/
def parse_function_definition :
    Nat → ParserSt → ParserSt × Except PErr (Option PTree)
  | 0, s => (s, .error .outOfFuel)
  | fuel + 1, s =>
    match expect .KEYWORD none "Syntax Error" s with
    | (s, .error e) => (s, .error e)
    | (s, .ok none) => (s, .ok none)
    | (s, .ok (some tyPt)) =>
    match expect .IDENTIFIER none "Syntax Error" s with
    | (s, .error e) => (s, .error e)
    | (s, .ok none) => (s, .ok none)
    | (s, .ok (some idPt)) =>
    match expect .SEPARATOR (some "(") "Syntax Error" s with
    | (s, .error e) => (s, .error e)
    | (s, .ok none) => (s, .ok none)
    | (s, .ok (some lpPt)) =>
    match paramsLoop fuel [] s with
    | (s, .error e) => (s, .error e)
    | (s, .ok none) => (s, .ok none)
    | (s, .ok (some params)) =>
    match expect .SEPARATOR (some ")") "Syntax Error" s with
    | (s, .error e) => (s, .error e)
    | (s, .ok none) => (s, .ok none)
    | (s, .ok (some rpPt)) =>
    match expect .SEPARATOR (some "\x7b") "Syntax Error" s with
    | (s, .error e) => (s, .error e)
    | (s, .ok none) => (s, .ok none)
    | (s, .ok (some lbPt)) =>
    match parse_function_body fuel s with
    | (s, .error e) => (s, .error e)
    | (s, .ok none) => (s, .ok none)
    | (s, .ok (some bodyPt)) =>
      (s, .ok (some (.mk "FunctionDefinition" none false
        [tyPt, idPt, lpPt, .mk "Parameters" none false params, rpPt, lbPt,
         bodyPt])))

/-- The parameter-consuming loop of `parse_function_definition`; `none`
means the `"Unclosed function parameters"` path (warn, construct aborted). -/
def paramsLoop :
    Nat → List PTree → ParserSt → ParserSt × Except PErr (Option (List PTree))
  | 0, _, s => (s, .error .outOfFuel)
  | fuel + 1, acc, s =>
    match s.current with
    | some t =>
      if t.kind = .SEPARATOR ∧ t.value = ")" then (s, .ok (some acc))
      else
        match advance s with
        | (some pt, s2) => paramsLoop fuel (acc ++ [pt]) s2
        | (none, s2) =>
          (warnP "❌ Error: Unclosed function parameters" (lastTokLine s2) s2,
           .ok none)
    | none => (s, .ok (some acc))

/-- `Parser.parse_function_body`. -/
def parse_function_body :
    Nat → ParserSt → ParserSt × Except PErr (Option PTree)
  | 0, s => (s, .error .outOfFuel)
  | fuel + 1, s =>
    match bodyLoop fuel [] s with
    | (s, .error e) => (s, .error e)
    | (s, .ok children) =>
    match expect .SEPARATOR (some "\x7d") "Syntax Error" s with
    | (s, .error e) => (s, .error e)
    | (s, .ok none) =>
      (warnP "❌ Error: Unclosed function body" (lastTokLine s) s, .ok none)
    | (s, .ok (some rbPt)) =>
      (s, .ok (some (.mk "FunctionBody" none false (children ++ [rbPt]))))

/-- The statement loop of `parse_function_body`. -/
def bodyLoop :
    Nat → List PTree → ParserSt → ParserSt × Except PErr (List PTree)
  | 0, _, s => (s, .error .outOfFuel)
  | fuel + 1, acc, s =>
    match s.current with
    | some t =>
      if t.kind = .SEPARATOR ∧ t.value = "\x7d" then (s, .ok acc)
      else
        match skipWC fuel s with
        | (s, .error e) => (s, .error e)
        | (s, .ok ()) =>
        match parse_statement fuel s with
        | (s, .error e) => (s, .error e)
        | (s, .ok (some stPt)) => bodyLoop fuel (acc ++ [stPt]) s
        | (s, .ok none) =>
          match s.current with
          | some t2 =>
            if t2.kind = .SEPARATOR ∧ t2.value = "\x7d" then bodyLoop fuel acc s
            else
              bodyLoop fuel acc
                (advance (warnP
                  ("⚠️ Skipping unparsable token in function body: " ++
                   t2.value ++ " (type: " ++ t2.kind.name ++ ")")
                  (.ln t2.line) s)).2
          | none => bodyLoop fuel acc s
    | none => (s, .ok acc)

/-- `Parser.parse_statement`. The final fall-through warning's f-string
subscripts `self.current_token`, raising `TypeError` when it is `None`. -/
def parse_statement :
    Nat → ParserSt → ParserSt × Except PErr (Option PTree)
  | 0, s => (s, .error .outOfFuel)
  | fuel + 1, s =>
    match s.current with
    | none => (s, .error .typeError)
    | some t =>
      if t.kind = .KEYWORD ∧ t.value ∈ declKeywords then
        -- Variable declaration
        match advance s with
        | (none, s) => (s, .error .typeError)
        | (some tyPt, s) =>
        match pmatch .IDENTIFIER none s with
        | (none, s) =>
          (warnP "❌ Error: Expected identifier after type keyword"
            (.ln t.line) s, .ok none)
        | (some idPt, s) =>
          match
            ((match s.current with
             | some t2 =>
               if t2.kind = .OPERATOR ∧ t2.value = "[" then
                 match advance s with
                 | (none, s) => (s, Except.error PErr.typeError)
                 | (some lsqPt, s) =>
                 match arraySizeLoop fuel [] s with
                 | (s, .error e) => (s, .error e)
                 | (s, .ok sizeChildren) =>
                 match expect .OPERATOR (some "]") "Syntax Error" s with
                 | (s, .error e) => (s, .error e)
                 | (s, .ok rsq) =>
                   (s, .ok ([tyPt, idPt, lsqPt,
                     .mk "ArraySize" none false sizeChildren] ++ rsq.toList))
               else (s, .ok [tyPt, idPt])
             | none => (s, Except.ok [tyPt, idPt])) :
              ParserSt × Except PErr (List PTree)) with
          | (s, .error e) => (s, .error e)
          | (s, .ok children) =>
          match expect .SEPARATOR (some ";") "Missing \x27;\x27 in declaration" s with
          | (s, .error e) => (s, .error e)
          | (s, .ok none) => (s, .ok none)
          | (s, .ok (some semiPt)) =>
            (s, .ok (some (.mk "Statement" none false (children ++ [semiPt]))))
      else if t.kind = .KEYWORD ∧ t.value = "return" then
        -- Return statement
        match advance s with
        | (none, s) => (s, .error .typeError)
        | (some retPt, s) =>
        match parse_expression fuel s with
        | (s, .error e) => (s, .error e)
        | (s, .ok exprOpt) =>
        match expect .SEPARATOR (some ";")
            "Missing \x27;\x27 after return statement" s with
        | (s, .error e) => (s, .error e)
        | (s, .ok none) => (s, .ok none)
        | (s, .ok (some semiPt)) =>
          (s, .ok (some (.mk "Statement" none false
            ([retPt] ++ exprOpt.toList ++ [semiPt]))))
      else if t.kind = .KEYWORD ∧ (t.value = "if" ∨ t.value = "while" ∨ t.value = "for") then
        -- Control structure (condition and body consumed token by token)
        match advance s with
        | (none, s) => (s, .error .typeError)
        | (some kwPt, s) =>
        let s := warnP ("📌 Skipping control flow structure: " ++ t.value)
          (.ln t.line) s
        match
          ((match pmatch .SEPARATOR (some "(") s with
           | (some lpPt, s) =>
             match condLoop fuel [] s with
             | (s, .error e) => (s, .error e)
             | (s, .ok condChildren) =>
             match expect .SEPARATOR (some ")") "Syntax Error" s with
             | (s, .error e) => (s, .error e)
             | (s, .ok rp) =>
               (s, .ok ([kwPt, lpPt, .mk "Condition" none false condChildren]
                 ++ rp.toList))
           | (none, s) => (s, Except.ok [kwPt])) :
            ParserSt × Except PErr (List PTree)) with
        | (s, .error e) => (s, .error e)
        | (s, .ok children) =>
        match s.current with
        | some t2 =>
          if t2.kind = .SEPARATOR ∧ t2.value = "\x7b" then
            match advance s with
            | (none, s) => (s, .error .typeError)
            | (some lbPt, s) =>
            match parse_function_body fuel s with
            | (s, .error e) => (s, .error e)
            | (s, .ok blockOpt) =>
              (s, .ok (some (.mk "Statement" none false
                (children ++ [lbPt] ++ blockOpt.toList))))
          else
            match parse_statement fuel s with
            | (s, .error e) => (s, .error e)
            | (s, .ok stOpt) =>
              (s, .ok (some (.mk "Statement" none false
                (children ++ stOpt.toList))))
        | none =>
          match parse_statement fuel s with
          | (s, .error e) => (s, .error e)
          | (s, .ok stOpt) =>
            (s, .ok (some (.mk "Statement" none false
              (children ++ stOpt.toList))))
      else if (t.kind = .IDENTIFIER ∨ t.kind = .NUMBER ∨ t.kind = .STRINGLIT
               ∨ t.kind = .OPERATOR)
              ∨ (t.kind = .SEPARATOR ∧ t.value = "(") then
        -- Expression statement
        match parse_expression_statement fuel s with
        | (s, .error e) => (s, .error e)
        | (s, .ok (some esPt)) =>
          (s, .ok (some (.mk "Statement" none false [esPt])))
        | (s, .ok none) => (s, .ok none)
      else
        -- Fall-through: warn and skip one token
        (advance (warnP
          ("⚠️ Skipping unknown/unhandled token as statement: " ++
           t.value ++ " (type: " ++ t.kind.name ++ ")")
          (.ln t.line) s)).2
        |> fun s => (s, .ok none)

/-- The array-size consuming loop of the declaration branch (dead in
practice: `[` is lexed as a `SEPARATOR`, not an `OPERATOR`). -/
def arraySizeLoop :
    Nat → List PTree → ParserSt → ParserSt × Except PErr (List PTree)
  | 0, _, s => (s, .error .outOfFuel)
  | fuel + 1, acc, s =>
    match s.current with
    | some t =>
      if t.kind = .OPERATOR ∧ t.value = "]" then (s, .ok acc)
      else
        match advance s with
        | (some pt, s2) => arraySizeLoop fuel (acc ++ [pt]) s2
        | (none, s2) => (s2, .ok acc)
    | none => (s, .ok acc)

/-- The condition-consuming loop of the control-structure branch. -/
def condLoop :
    Nat → List PTree → ParserSt → ParserSt × Except PErr (List PTree)
  | 0, _, s => (s, .error .outOfFuel)
  | fuel + 1, acc, s =>
    match s.current with
    | some t =>
      if t.kind = .SEPARATOR ∧ t.value = ")" then (s, .ok acc)
      else
        match advance s with
        | (some pt, s2) => condLoop fuel (acc ++ [pt]) s2
        | (none, s2) => (s2, .ok acc)
    | none => (s, .ok acc)

/-- `Parser.parse_expression`: accumulate tokens until a statement
terminator, recursing only to balance `(...)` and (dead) `[...]`. Returns
`none` when no child was consumed. -/
def parse_expression :
    Nat → ParserSt → ParserSt × Except PErr (Option PTree)
  | 0, s => (s, .error .outOfFuel)
  | fuel + 1, s =>
    match parseExprLoop fuel [] s with
    | (s, .error e) => (s, .error e)
    | (s, .ok children) =>
      (s, .ok (if children.isEmpty then none
               else some (.mk "Expression" none false children)))

/-- The token-consuming loop of `parse_expression`. -/
def parseExprLoop :
    Nat → List PTree → ParserSt → ParserSt × Except PErr (List PTree)
  | 0, _, s => (s, .error .outOfFuel)
  | fuel + 1, acc, s =>
    match s.current with
    | none => (s, .ok acc)
    | some t =>
      if t.kind = .SEPARATOR ∧ t.value ∈ exprTerminators then (s, .ok acc)
      else if t.kind = .SEPARATOR ∧ t.value = "(" then
        match advance s with
        | (none, s) => (s, .error .typeError)
        | (some lpPt, s) =>
        match parse_expression fuel s with
        | (s, .error e) => (s, .error e)
        | (s, .ok subOpt) =>
        match expect .SEPARATOR (some ")")
            "Unclosed parenthesis in expression" s with
        | (s, .error e) => (s, .error e)
        | (s, .ok rp) =>
          parseExprLoop fuel (acc ++ [lpPt] ++ subOpt.toList ++ rp.toList) s
      else if t.kind = .OPERATOR ∧ t.value = "[" then
        match advance s with
        | (none, s) => (s, .error .typeError)
        | (some lsqPt, s) =>
        match parse_expression fuel s with
        | (s, .error e) => (s, .error e)
        | (s, .ok subOpt) =>
        match expect .OPERATOR (some "]")
            "Unclosed bracket in array access" s with
        | (s, .error e) => (s, .error e)
        | (s, .ok rsq) =>
          parseExprLoop fuel (acc ++ [lsqPt] ++ subOpt.toList ++ rsq.toList) s
      else
        match advance s with
        | (some pt, s) => parseExprLoop fuel (acc ++ [pt]) s
        | (none, s) => (s, .ok acc)

/-- `Parser.parse_expression_statement`: the inline insecure-call check on
the FIRST token only, then a flat expression, then `;`. -/
def parse_expression_statement :
    Nat → ParserSt → ParserSt × Except PErr (Option PTree)
  | 0, s => (s, .error .outOfFuel)
  | fuel + 1, s =>
    let curLine : LineRef :=
      match s.current with | some t => .ln t.line | none => .noneVal
    let tokValStr : String :=
      match s.current with | some t => t.value | none => "None"
    let s :=
      match s.current with
      | some t =>
        if t.kind = .IDENTIFIER ∧ t.value ∈ insecureFunctions then
          check_insecure_function t.value t.line s
        else s
      | none => s
    match parse_expression fuel s with
    | (s, .error e) => (s, .error e)
    | (s, .ok (some initExprPt)) =>
      match pmatch .SEPARATOR (some ";") s with
      | (some semiPt, s) =>
        (s, .ok (some (.mk "ExpressionStatement" none false
          [initExprPt, semiPt])))
      | (none, s) =>
        (warnP "❌ Error: Missing \x27;\x27 in statement" curLine s, .ok none)
    | (s, .ok none) =>
      (warnP ("❌ Error: Cannot parse beginning of expression statement at token \x27"
        ++ tokValStr ++ "\x27") curLine s, .ok none)

/-- `Parser.check_insecure_function`: record a structured issue, with the
table's fix and CWE when present, else the generic fix and `"N/A"`. -/
def check_insecure_function (name : String) (line : Nat) (s : ParserSt) :
    ParserSt :=
  match s with
  | ⟨tokens, idx, cur, warnings, issues⟩ =>
    match insecureFunctionInfo.find? (fun p => p.1 = name) with
    | some (_, fix, cwe) =>
      ⟨tokens, idx, cur, warnings,
        issues ++ [⟨name, line, fix, cwe, "Custom Parser"⟩]⟩
    | none =>
      ⟨tokens, idx, cur, warnings,
        issues ++ [⟨name, line,
          "Consult documentation for secure alternatives.", "N/A",
          "Custom Parser"⟩]⟩

end

/-- The top-level loop of `Parser.parse`. -/
def topLoop :
    Nat → List PTree → ParserSt → ParserSt × Except PErr (List PTree)
  | 0, _, s => (s, .error .outOfFuel)
  | fuel + 1, acc, s =>
    match s.current with
    | none => (s, .ok acc)
    | some t =>
      if t.kind = .KEYWORD ∧ t.value ∈ topKeywords then
        match parse_function_definition fuel s with
        | (s, .error e) => (s, .error e)
        | (s, .ok fdOpt) =>
          match skipWC fuel s with
          | (s, .error e) => (s, .error e)
          | (s, .ok ()) => topLoop fuel (acc ++ fdOpt.toList) s
      else
        let s := warnP "❌ Error: Invalid top-level construct" (.ln t.line) s
        let s := warnP ("⚠️ Skipping unrecognized token: " ++ t.value ++
          " (type: " ++ t.kind.name ++ ")") (.ln t.line) s
        let s := (advance s).2
        match skipWC fuel s with
        | (s, .error e) => (s, .error e)
        | (s, .ok ()) => topLoop fuel acc s

/-- `Parser.parse`: initial skip, then the top-level loop; always returns a
`Program` root (unless a `TypeError` propagates). -/
def parseP : Nat → ParserSt → ParserSt × Except PErr PTree
  | 0, s => (s, .error .outOfFuel)
  | fuel + 1, s =>
    match skipWC fuel s with
    | (s, .error e) => (s, .error e)
    | (s, .ok ()) =>
      match topLoop fuel [] s with
      | (s, .error e) => (s, .error e)
      | (s, .ok children) => (s, .ok (.mk "Program" none false children))

/-- `Parser.__init__`: cursor at 0, then one `advance`. -/
def initParser (toks : List Tok) : ParserSt :=
  (advance { tokens := toks, idx := 0, current := none, warnings := [],
             issues := [] }).2

/-- Ample fuel for a token list: the embedding spends at most a few units of
fuel per consumed token along any call path. -/
def parserFuel (toks : List Tok) : Nat := 8 * toks.length + 32

/-- Tokenize and parse a source text: the analysis entry point of the core
(`tokenize_code` then `Parser(tokens).parse()`), as `analyze_code` calls it. -/
def runParser (code : List Char) : ParserSt × Except PErr PTree :=
  let toks := tokenize_code code
  parseP (parserFuel toks) (initParser toks)

/-- The insecure-function issues of a run. -/
def parserIssues (code : List Char) : List Issue := (runParser code).1.issues

/-- The warnings of a run. -/
def parserWarnings (code : List Char) : List String :=
  (runParser code).1.warnings

/-! ## Findings as Python dicts (`analyze.py`)

A finding is a Python dict; `_deduplicate_findings` reads the keys
`line_number` and `title` with `.get` and tests the PRESENCE of the key
`suggestion` with `in`. Every key any detector of `analyze.py` writes is a
field here; `none` models an absent key. -/

structure PyDict where
  title : Option String := none
  line_number : Option Nat := none
  severity : Option String := none
  explanation : Option String := none
  suggestion : Option String := none
  ftype : Option String := none
  function : Option String := none
  line : Option Nat := none
  fix : Option String := none
  cwe : Option String := none
  source : Option String := none
  deriving DecidableEq, Repr

/-- The dict `check_insecure_function` builds, as `analyze_code` feeds it to
the aggregator: keys `function`/`line`/`fix`/`cwe`/`source` only — in
particular no `line_number`, `title` or `suggestion` key. -/
def Issue.toDict (i : Issue) : PyDict :=
  { function := some i.function, line := some i.line, fix := some i.fix,
    cwe := some i.cwe, source := some i.source }

/-! ## Finding aggregator (`analyze.py`, `_deduplicate_findings`) -/

/-- `str.lower()` (ASCII model, like the character classes). -/
def lowerStr (s : String) : String := ⟨s.data.map Char.toLower⟩

/-- The dedup key: `(finding.get('line_number'), finding.get('title','').lower())`. -/
def dedupKey (d : PyDict) : Option Nat × String :=
  (d.line_number, lowerStr (d.title.getD ""))

/-- One iteration of the dedup loop over the insertion-ordered dict
`unique_findings`: insert a fresh key at the end; for a repeated key,
replace the stored finding in place exactly when the new finding HAS a
`suggestion` key and the stored one does not. -/
def dedupStep (acc : List ((Option Nat × String) × PyDict)) (f : PyDict) :
    List ((Option Nat × String) × PyDict) :=
  match acc.find? (fun e => e.1 == dedupKey f) with
  | none => acc ++ [(dedupKey f, f)]
  | some e =>
    if f.suggestion.isSome ∧ ¬e.2.suggestion.isSome then
      acc.map (fun e2 => if e2.1 == dedupKey f then (dedupKey f, f) else e2)
    else acc

/-- `_deduplicate_findings`: fold the findings through the dict, then return
its values in insertion order. -/
def deduplicate_findings (l : List PyDict) : List PyDict :=
  (l.foldl dedupStep []).map (·.2)

/-! ## Arithmetic-risk heuristic (`analyze.py`,
`_analyze_arithmetic_operations`)

Each regex of the function is embedded as a dedicated matcher that returns
the captured groups and the matched length at the current position; the
matchers implement the backtracking behavior of the pattern (for these
patterns the greedy runs are forced: a shorter `\w+` or `\d+` run leaves a
word character where a delimiter is required). `findall` scans a line left
to right, non-overlapping, exactly like `re.findall`. -/

/-- A position-advancing step of a regex: literal, one character, `\s*`. -/
def sLit (lit : List Char) (cs : List Char) (p : Nat) : Option Nat :=
  if startsWithL lit (cs.drop p) then some (p + lit.length) else none

def sLitCI (lit : List Char) (cs : List Char) (p : Nat) : Option Nat :=
  if startsWithCI lit (cs.drop p) then some (p + lit.length) else none

def sChar (c : Char) (cs : List Char) (p : Nat) : Option Nat :=
  match cs.drop p with
  | d :: _ => if d = c then some (p + 1) else none
  | [] => none

def sSpaces (cs : List Char) (p : Nat) : Option Nat :=
  some (p + runLen isSpaceChar (cs.drop p))

/-- One of `[\+\-\*\/]`. -/
def sArithOp (cs : List Char) (p : Nat) : Option Nat :=
  match cs.drop p with
  | d :: _ => if d = '+' ∨ d = '-' ∨ d = '*' ∨ d = '/' then some (p + 1)
              else none
  | [] => none

/-- A capturing `(\w+)`: the greedy nonempty run of word characters. -/
def sWordGroup (cs : List Char) (p : Nat) : Option (List Char × Nat) :=
  let n := runLen isWordChar (cs.drop p)
  if n = 0 then none else some ((cs.drop p).take n, p + n)

/-- Taint pattern `scanf\s*\([^,]*,\s*&(\w+)`. -/
def mScanf (cs : List Char) : Option (List (List Char) × Nat) := do
  let p ← sLit (cL "scanf") cs 0
  let p ← sSpaces cs p
  let p ← sChar '(' cs p
  let p := p + runLen (fun c => c ≠ ',') (cs.drop p)
  let p ← sChar ',' cs p
  let p ← sSpaces cs p
  let p ← sChar '&' cs p
  let (g, p) ← sWordGroup cs p
  some ([g], p)

/-- Taint pattern `(\w+)\s*=\s*atoi\s*\(`. -/
def mAtoi (cs : List Char) : Option (List (List Char) × Nat) := do
  let (g, p) ← sWordGroup cs 0
  let p ← sSpaces cs p
  let p ← sChar '=' cs p
  let p ← sSpaces cs p
  let p ← sLit (cL "atoi") cs p
  let p ← sSpaces cs p
  let p ← sChar '(' cs p
  some ([g], p)

/-- Taint pattern `(\w+)\s*=\s*argv`. -/
def mArgvAssign (cs : List Char) : Option (List (List Char) × Nat) := do
  let (g, p) ← sWordGroup cs 0
  let p ← sSpaces cs p
  let p ← sChar '=' cs p
  let p ← sSpaces cs p
  let p ← sLit (cL "argv") cs p
  some ([g], p)

/-- Taint pattern `fgets\s*\((\w+)`. -/
def mFgets (cs : List Char) : Option (List (List Char) × Nat) := do
  let p ← sLit (cL "fgets") cs 0
  let p ← sSpaces cs p
  let p ← sChar '(' cs p
  let (g, p) ← sWordGroup cs p
  some ([g], p)

/-- Risk pattern `(\w+)\s*=\s*(\w+)\s*[\+\-\*\/]\s*(\w+)\s*;`. -/
def mArith1 (cs : List Char) : Option (List (List Char) × Nat) := do
  let (g1, p) ← sWordGroup cs 0
  let p ← sSpaces cs p
  let p ← sChar '=' cs p
  let p ← sSpaces cs p
  let (g2, p) ← sWordGroup cs p
  let p ← sSpaces cs p
  let p ← sArithOp cs p
  let p ← sSpaces cs p
  let (g3, p) ← sWordGroup cs p
  let p ← sSpaces cs p
  let p ← sChar ';' cs p
  some ([g1, g2, g3], p)

/-- Risk pattern `(\w+)\s*[\+\-\*\/]=\s*(\w+)\s*;`. -/
def mArith2 (cs : List Char) : Option (List (List Char) × Nat) := do
  let (g1, p) ← sWordGroup cs 0
  let p ← sSpaces cs p
  let p ← sArithOp cs p
  let p ← sChar '=' cs p
  let p ← sSpaces cs p
  let (g2, p) ← sWordGroup cs p
  let p ← sSpaces cs p
  let p ← sChar ';' cs p
  some ([g1, g2], p)

/-- Risk pattern `\w+\[\s*([^\]]+)\s*\]`: the inner run stops at the first
`]`; the leading `\s*` takes the leading spaces except that the group keeps
at least one character (regex backtracking when the content is all spaces). -/
def mArrayIdx (cs : List Char) : Option (List (List Char) × Nat) := do
  let w := runLen isWordChar cs
  if w = 0 then none else
  let p ← sChar '[' cs w
  let inner := runLen (fun c => c ≠ ']') (cs.drop p)
  if inner = 0 then none else
  let pEnd ← sChar ']' cs (p + inner)
  let innerChars := (cs.drop p).take inner
  let k := min (runLen isSpaceChar innerChars) (inner - 1)
  some ([innerChars.drop k], pEnd)

/-- Risk pattern `malloc\s*\(\s*([^\)]+)\)` (same group shape as above, with
the inner run stopping at the first `)`). -/
def mMalloc (cs : List Char) : Option (List (List Char) × Nat) := do
  let p ← sLit (cL "malloc") cs 0
  let p ← sSpaces cs p
  let p ← sChar '(' cs p
  let inner := runLen (fun c => c ≠ ')') (cs.drop p)
  if inner = 0 then none else
  let pEnd ← sChar ')' cs (p + inner)
  let innerChars := (cs.drop p).take inner
  let k := min (runLen isSpaceChar innerChars) (inner - 1)
  some ([innerChars.drop k], pEnd)

/-- `re.findall`: scan left to right; on a match record its groups and
resume after it, else move one character ahead. Every matcher above
consumes at least one character; fuel `= length` always suffices. -/
def findallAux (m : List Char → Option (List (List Char) × Nat)) :
    Nat → List Char → List (List (List Char))
  | 0, _ => []
  | _, [] => []
  | fuel + 1, cs =>
    match m cs with
    | some (gs, n) => gs :: findallAux m fuel (cs.drop (max n 1))
    | none => findallAux m fuel (cs.drop 1)

def findall (m : List Char → Option (List (List Char) × Nat))
    (cs : List Char) : List (List (List Char)) :=
  findallAux m cs.length cs

/-- `str.splitlines`, over the ASCII newline (the inputs of this
development contain no `\r` or exotic line breaks). -/
def splitNl : List Char → List (List Char)
  | [] => [[]]
  | '\n' :: rest => [] :: splitNl rest
  | c :: rest =>
    match splitNl rest with
    | p :: ps => (c :: p) :: ps
    | [] => [[c]]

def splitlines (cs : List Char) : List (List Char) :=
  match cs with
  | [] => []
  | _ =>
    let ps := splitNl cs
    if cs.getLast? = some '\n' then ps.dropLast else ps

/-- `re.findall(r'\b\w+\b', s)`: the maximal word-character runs. -/
def wordRunsAux : Nat → List Char → List (List Char)
  | 0, _ => []
  | _, [] => []
  | fuel + 1, c :: cs =>
    if isWordChar c then
      let n := runLen isWordChar (c :: cs)
      ((c :: cs).take n) :: wordRunsAux fuel ((c :: cs).drop n)
    else wordRunsAux fuel cs

def wordRuns (cs : List Char) : List (List Char) :=
  wordRunsAux cs.length cs

/-- The four `input_patterns`, in source order. -/
def inputPatternList : List (List Char → Option (List (List Char) × Nat)) :=
  [mScanf, mAtoi, mArgvAssign, mFgets]

/-- The taint-seeding pass: every captured variable name, every line, every
pattern. Python stores them in a set; only membership is ever used, so the
duplicate-preserving list is an equivalent model. -/
def inputVariables (lines : List (List Char)) : List (List Char) :=
  lines.flatMap (fun line =>
    inputPatternList.flatMap (fun m => (findall m line).flatMap id))

/-- The four `arithmetic_patterns` with their `op_type` strings and the
precomputed `op_type.title()` used in the finding title. -/
def arithPatternList :
    List ((List Char → Option (List (List Char) × Nat)) × String × String) :=
  [(mArith1, "arithmetic", "Arithmetic"),
   (mArith2, "compound arithmetic", "Compound Arithmetic"),
   (mArrayIdx, "array indexing arithmetic", "Array Indexing Arithmetic"),
   (mMalloc, "malloc with arithmetic", "Malloc With Arithmetic")]

/-- The bounds-check signal matched at the start of `cs`:
`(if\s*\(.*[<>]=?)|(INT_MAX)|(INT_MIN)` with `re.IGNORECASE`; `.` does not
cross a newline, `\s` does. -/
def boundsAt (cs : List Char) : Bool :=
  (match (do
    let p ← sLitCI (cL "if") cs 0
    let p ← sSpaces cs p
    let p ← sChar '(' cs p
    let seg := (cs.drop p).takeWhile (fun c => c ≠ '\n')
    if seg.any (fun c => c = '<' ∨ c = '>') then some p else none) with
   | some _ => true
   | none => false) ||
  startsWithCI (cL "INT_MAX") cs || startsWithCI (cL "INT_MIN") cs

/-- `re.search` of the bounds-check signal anywhere in the context. -/
def hasBoundsCheck : List Char → Bool
  | [] => false
  | c :: rest => boundsAt (c :: rest) || hasBoundsCheck rest

/-- The context window `lines[max(0, line_num - 3) : min(len, line_num + 2)]`
joined with newlines: lines `line_num - 2 .. line_num + 2` (1-based). -/
def contextOf (lines : List (List Char)) (lineNum : Nat) : List Char :=
  let cstart := lineNum - 3
  let cend := min lines.length (lineNum + 2)
  List.intercalate (cL "\n") ((lines.drop cstart).take (cend - cstart))

/-- The finding dict appended for a risky match. -/
def mkArithFinding (opTitled : String) (ln : Nat) (sev : String)
    (usesInput : Bool) : PyDict :=
  { title := some ("Integer Overflow Risk in " ++ opTitled),
    line_number := some ln,
    severity := some sev,
    explanation := some
      ("Arithmetic operation without explicit bounds checking detected. " ++
       (if usesInput then "It involves user-controlled data, increasing risk."
        else "")),
    suggestion := some
      "Validate inputs and add bounds checking before the operation. Example: if (a > INT_MAX - b) \x7b /* handle overflow */ \x7d.",
    ftype := some "arithmetic_vulnerability" }

/-- The per-match body of the risk scan: extract the referenced identifiers
from the captured groups (`re.findall(r'\b\w+\b', str(match))` — the groups
of the tuple are joined by non-word punctuation, so this equals the word
runs of the groups), test the taint set and the window, and decide:
tainted and no bounds check → High; no bounds check → Medium; else
`continue` (no finding). -/
def matchDecision (inputVars : List (List Char)) (lines : List (List Char))
    (ln : Nat) (opTitled : String) (groups : List (List Char)) :
    Option PyDict :=
  let opVars := groups.flatMap wordRuns
  let usesInput := opVars.any (fun v => inputVars.contains v)
  let hasBounds := hasBoundsCheck (contextOf lines ln)
  if usesInput ∧ ¬hasBounds then some (mkArithFinding opTitled ln "High" usesInput)
  else if ¬hasBounds then some (mkArithFinding opTitled ln "Medium" usesInput)
  else none

/-- 1-based enumeration `enumerate(lines, 1)`. -/
def enum1 (lines : List (List Char)) : List (Nat × List Char) :=
  lines.enum.map (fun e => (e.1 + 1, e.2))

/-- `_analyze_arithmetic_operations`: taint pass, then for every line, every
pattern, every match, the decision above, appending findings in order. -/
def analyze_arithmetic_operations (code : List Char) : List PyDict :=
  let lines := splitlines code
  let inputVars := inputVariables lines
  (enum1 lines).flatMap (fun le =>
    arithPatternList.flatMap (fun pat =>
      (findall pat.1 le.2).filterMap
        (matchDecision inputVars lines le.1 pat.2.2)))

/-- The raw match enumeration of the risk scan (line number, titled op
type, captured groups), without the decision — used to state the decision
rule of the heuristic as a theorem. -/
def arithMatches (code : List Char) : List (Nat × String × List (List Char)) :=
  let lines := splitlines code
  (enum1 lines).flatMap (fun le =>
    arithPatternList.flatMap (fun pat =>
      (findall pat.1 le.2).map (fun gs => (le.1, pat.2.2, gs))))

/-! ## Helpers for stating tree-shape properties -/

def defaultPT : PTree := .mk "" none false []

/-- The first child named `nm`. -/
def firstNamed (nm : String) (t : PTree) : PTree :=
  (t.children.filter (fun c => c.name = nm)).headD defaultPT

/-- The number of children named `nm`. -/
def countChildrenNamed (nm : String) (t : PTree) : Nat :=
  (t.children.filter (fun c => c.name = nm)).length

/-- The first terminal child. -/
def firstTerminal (t : PTree) : PTree :=
  (t.children.filter PTree.isTerminal).headD defaultPT

/-- The parse tree of a run, or a dummy node when the run raised. -/
def runTree (code : List Char) : PTree :=
  match (runParser code).2 with
  | .ok t => t
  | .error _ => defaultPT

/-! ## Concrete inputs used by the claims -/

/-- `int main() { return 0; }` -/
def c8code : List Char := cL "int main() \x7b return 0; \x7d"

/-- `int main() { char buffer[10]; }` -/
def c9code : List Char := cL "int main() \x7b char buffer[10]; \x7d"

/-- `gets(buffer);` on line 7 inside a function body. -/
def c5code : List Char := cL "int main() \x7b\n\n\n\n\n\ngets(buffer);\n\x7d"

/-- `gets(buffer);` on line 7 at top level (outside any function). -/
def c5topCode : List Char := cL "\n\n\n\n\n\ngets(buffer);"

/-- `gets` consumed in expression position after the first token. -/
def c3code : List Char := cL "int main() \x7b x = gets(y); \x7d"

/-- The C4 example, unwrapped. -/
def c4ex1 : List Char := cL "int x = atoi(argv[1]);\nint y = x + 10;"

/-- The C4 example, wrapped in a bounds check. -/
def c4ex2 : List Char :=
  cL "int x = atoi(argv[1]);\nif (x < 100) \x7b int y = x + 10; \x7d"

/-- The two findings of the C1 example. -/
def c1f1 : PyDict :=
  { line_number := some 3, title := some "Foo", suggestion := some "" }
def c1f2 : PyDict :=
  { line_number := some 3, title := some "foo", suggestion := some "fix it" }

/-- A second malformed input for C2: EOF inside a control structure. -/
def c2codeB : List Char := cL "int main() \x7b if (1)"

/-- A parser state about to consume `gets` at line 5 in expression-statement
position, used to instantiate the C3 theorem. -/
def c3WitSt : ParserSt :=
  { tokens := [⟨.IDENTIFIER, "gets", 5⟩, ⟨.SEPARATOR, ";", 5⟩],
    idx := 1, current := some ⟨.IDENTIFIER, "gets", 5⟩,
    warnings := [], issues := [] }

/-- The unique Statement node of the C8 parse. -/
def c8stmt : PTree :=
  firstNamed "Statement" (firstNamed "FunctionBody"
    (firstNamed "FunctionDefinition" (runTree c8code)))

/-! ## Aggregator lemmas -/

/-- The entries of the dict model are well-formed: distinct keys, each value
keyed by its own dedup key. -/
def goodAcc (acc : List ((Option Nat × String) × PyDict)) : Prop :=
  (acc.map Prod.fst).Nodup ∧ ∀ e ∈ acc, dedupKey e.2 = e.1

theorem goodAcc_nil : goodAcc [] := by
  constructor
  · exact List.nodup_nil
  · intro e he; cases he

theorem dedupStep_good (acc : List ((Option Nat × String) × PyDict))
    (f : PyDict) (h : goodAcc acc) : goodAcc (dedupStep acc f) := by
  obtain ⟨hnd, hkeys⟩ := h
  unfold dedupStep
  split
  · -- fresh key: appended at the end
    rename_i hfind
    constructor
    · rw [List.map_append, List.nodup_append]
      refine ⟨hnd, by simp, ?_⟩
      intro a ha hb
      simp only [List.map_cons, List.map_nil, List.mem_singleton] at hb
      subst hb
      rw [List.mem_map] at ha
      obtain ⟨e, he, hfst⟩ := ha
      have hnone := List.find?_eq_none.mp hfind e he
      simp only [beq_iff_eq] at hnone
      exact hnone hfst
    · intro e he
      rcases List.mem_append.mp he with h1 | h2
      · exact hkeys e h1
      · simp at h2; subst h2; rfl
  · -- repeated key
    rename_i e0 hfind
    split
    · constructor
      · have : (acc.map (fun e2 =>
            if e2.1 == dedupKey f then (dedupKey f, f) else e2)).map Prod.fst
            = acc.map Prod.fst := by
          rw [List.map_map]
          apply List.map_congr_left
          intro e _
          simp only [Function.comp]
          split
          · rename_i hbe
            have : e.1 = dedupKey f := by
              simpa using hbe
            simp [this]
          · rfl
        rw [this]
        exact hnd
      · intro e he
        rw [List.mem_map] at he
        obtain ⟨e1, he1, rfl⟩ := he
        split
        · rfl
        · exact hkeys e1 he1
    · exact ⟨hnd, hkeys⟩

theorem foldl_dedupStep_good (l : List PyDict)
    (acc : List ((Option Nat × String) × PyDict)) (h : goodAcc acc) :
    goodAcc (l.foldl dedupStep acc) := by
  induction l generalizing acc with
  | nil => exact h
  | cons f l ih => exact ih _ (dedupStep_good acc f h)

/-- In a well-formed accumulator, at most one stored finding has any given
dedup key. -/
theorem goodAcc_countP_le_one :
    ∀ acc : List ((Option Nat × String) × PyDict), goodAcc acc →
    ∀ key : Option Nat × String,
    (acc.map Prod.snd).countP (fun d => dedupKey d == key) ≤ 1 := by
  intro acc
  induction acc with
  | nil => intro _ key; simp
  | cons e acc ih =>
    intro h key
    obtain ⟨hnd, hkeys⟩ := h
    rw [List.map_cons, List.nodup_cons] at hnd
    have ih2 := ih ⟨hnd.2, fun e2 he2 => hkeys e2 (List.mem_cons_of_mem _ he2)⟩ key
    rw [List.map_cons, List.countP_cons]
    by_cases hk : (dedupKey e.2 == key) = true
    · have he1 : e.1 = key := by
        have h0 := hkeys e (List.mem_cons_self _ _)
        rw [← h0]
        exact eq_of_beq hk
      have hzero : (acc.map Prod.snd).countP (fun d => dedupKey d == key) = 0 := by
        rw [List.countP_eq_zero]
        intro d hd
        rw [List.mem_map] at hd
        obtain ⟨e2, he2, rfl⟩ := hd
        have hkey2 : dedupKey e2.2 = e2.1 :=
          hkeys e2 (List.mem_cons_of_mem _ he2)
        have hne : e2.1 ≠ e.1 := by
          intro hcontra
          exact hnd.1 (hcontra ▸ List.mem_map_of_mem Prod.fst he2)
        simp only [hkey2, beq_iff_eq]
        intro hcontra
        exact hne (by rw [hcontra, he1])
      rw [hzero, if_pos hk]
    · rw [if_neg hk]
      omega

/-! ## Parser lemmas: `parse_expression` never touches the issue list -/

theorem advance_issues (s : ParserSt) : (advance s).2.issues = s.issues := by
  obtain ⟨tks, idx, cur, w, i⟩ := s
  cases hget : tks[idx]? with
  | none => simp [advance, hget]
  | some t => simp [advance, hget]

theorem warnP_issues (msg : String) (l : LineRef) (s : ParserSt) :
    (warnP msg l s).issues = s.issues := by
  obtain ⟨tks, idx, cur, w, i⟩ := s
  rfl

theorem pmatch_issues (k : Kind) (v : Option String) (s : ParserSt) :
    (pmatch k v s).2.issues = s.issues := by
  obtain ⟨tks, idx, cur, w, i⟩ := s
  cases cur with
  | none => rfl
  | some t =>
    by_cases hc : t.kind = k ∧ (v = none ∨ v = some t.value)
    · simp [pmatch, hc, advance_issues]
    · simp [pmatch, hc]

/-- The second component of a pair equation. -/
theorem eq_snd_of {α β : Type} {r : α × β} {a : α} {b : β} (h : r = (a, b)) :
    b = r.2 := by rw [h]

/-- The first component of a pair equation. -/
theorem eq_fst_of {α β : Type} {r : α × β} {a : α} {b : β} (h : r = (a, b)) :
    a = r.1 := by rw [h]

theorem expect_issues (k : Kind) (v : Option String) (msg : String)
    (s : ParserSt) : (expect k v msg s).1.issues = s.issues := by
  unfold expect
  split
  · rename_i n s2 heq
    show s2.issues = s.issues
    rw [eq_snd_of heq, pmatch_issues]
  · rename_i s2 heq
    split
    · show s2.issues = s.issues
      rw [eq_snd_of heq, pmatch_issues]
    · rename_i t hcur
      show (warnP _ _ s2).issues = s.issues
      rw [warnP_issues, eq_snd_of heq, pmatch_issues]

theorem exprIssuesAux : ∀ fuel,
    (∀ acc s, (parseExprLoop fuel acc s).1.issues = s.issues) ∧
    (∀ s, (parse_expression fuel s).1.issues = s.issues) := by
  intro fuel
  induction fuel with
  | zero => exact ⟨fun _ _ => rfl, fun _ => rfl⟩
  | succ n ih =>
    obtain ⟨ihLoop, ihExpr⟩ := ih
    constructor
    · intro acc s
      show (parseExprLoop (n + 1) acc s).1.issues = s.issues
      unfold parseExprLoop
      split
      · rfl
      · rename_i t hcur
        split
        · rfl
        · split
          · -- '(' branch
            split
            · rename_i s1 heq
              show s1.issues = s.issues
              rw [eq_snd_of heq, advance_issues]
            · rename_i lpPt s1 heq
              split
              · rename_i s2 e heq2
                show s2.issues = s.issues
                rw [eq_fst_of heq2, ihExpr, eq_snd_of heq, advance_issues]
              · rename_i s2 subOpt heq2
                split
                · rename_i s3 e heq3
                  show s3.issues = s.issues
                  rw [eq_fst_of heq3, expect_issues, eq_fst_of heq2, ihExpr,
                      eq_snd_of heq, advance_issues]
                · rename_i s3 rp heq3
                  rw [ihLoop, eq_fst_of heq3, expect_issues, eq_fst_of heq2,
                      ihExpr, eq_snd_of heq, advance_issues]
          · split
            · -- '[' branch
              split
              · rename_i s1 heq
                show s1.issues = s.issues
                rw [eq_snd_of heq, advance_issues]
              · rename_i lsqPt s1 heq
                split
                · rename_i s2 e heq2
                  show s2.issues = s.issues
                  rw [eq_fst_of heq2, ihExpr, eq_snd_of heq, advance_issues]
                · rename_i s2 subOpt heq2
                  split
                  · rename_i s3 e heq3
                    show s3.issues = s.issues
                    rw [eq_fst_of heq3, expect_issues, eq_fst_of heq2, ihExpr,
                        eq_snd_of heq, advance_issues]
                  · rename_i s3 rsq heq3
                    rw [ihLoop, eq_fst_of heq3, expect_issues, eq_fst_of heq2,
                        ihExpr, eq_snd_of heq, advance_issues]
            · -- plain-token branch
              split
              · rename_i pt s1 heq
                rw [ihLoop, eq_snd_of heq, advance_issues]
              · rename_i s1 heq
                show s1.issues = s.issues
                rw [eq_snd_of heq, advance_issues]
    · intro s
      show (parse_expression (n + 1) s).1.issues = s.issues
      unfold parse_expression
      split
      · rename_i s1 e heq
        show s1.issues = s.issues
        rw [eq_fst_of heq, ihLoop]
      · rename_i s1 cs heq
        show s1.issues = s.issues
        rw [eq_fst_of heq, ihLoop]

theorem parse_expression_issues (fuel : Nat) (s : ParserSt) :
    (parse_expression fuel s).1.issues = s.issues :=
  (exprIssuesAux fuel).2 s

/-! ## Lexer lemmas: every regex alternative consumes at least one
character, so the scanner always advances and the matches tile the input -/

theorem runLen_cons_pos {p : Char → Bool} {c : Char} {cs : List Char}
    (h : p c = true) : 1 ≤ runLen p (c :: cs) := by
  simp [runLen, h]

theorem matchComment_pos {cs : List Char} {n : Nat}
    (h : matchComment cs = some n) : 1 ≤ n := by
  unfold matchComment at h
  split at h
  · injection h with h'; omega
  · split at h
    · rw [Option.map_eq_some'] at h
      obtain ⟨k, _, hk⟩ := h
      omega
    · cases h

theorem matchPreproc_pos {cs : List Char} {n : Nat}
    (h : matchPreproc cs = some n) : 1 ≤ n := by
  unfold matchPreproc at h
  split at h
  · dsimp only at h
    split at h
    · injection h with h'; omega
    · cases h
  · cases h

theorem keywordList_len : ∀ k ∈ keywordList, 1 ≤ k.length := by decide

theorem matchKeyword_pos {prev : Option Char} {cs : List Char} {n : Nat}
    (h : matchKeyword prev cs = some n) : 1 ≤ n := by
  unfold matchKeyword at h
  split at h
  · rw [Option.map_eq_some'] at h
    obtain ⟨k, hk, rfl⟩ := h
    exact keywordList_len k (List.mem_of_find?_eq_some hk)
  · cases h

theorem isWordChar_of_identStart {c : Char} (h : isIdentStart c = true) :
    isWordChar c = true := by
  simp only [isIdentStart, Bool.or_eq_true] at h
  simp only [isWordChar, Char.isAlphanum, Bool.or_eq_true]
  rcases h with h | h
  · exact Or.inl (Or.inl h)
  · exact Or.inr h

theorem matchIdent_pos {prev : Option Char} {cs : List Char} {n : Nat}
    (h : matchIdent prev cs = some n) : 1 ≤ n := by
  unfold matchIdent at h
  split at h
  · split at h
    · split at h
      · rename_i c rest hw
        injection h with h'
        subst h'
        exact runLen_cons_pos (isWordChar_of_identStart hw)
      · cases h
    · cases h
  · cases h

theorem matchNumber_pos {prev : Option Char} {cs : List Char} {n : Nat}
    (h : matchNumber prev cs = some n) : 1 ≤ n := by
  unfold matchNumber at h
  dsimp only at h
  split at h
  · rename_i m hm
    injection h with h'
    subst h'
    -- hex alternative: 2 + run
    split at hm
    · split at hm
      · injection hm with h2; omega
      · cases hm
    · cases hm
  · -- decimal alternative: every candidate length includes the nonempty
    -- digit run
    rename_i hm
    split at h
    · split at h
      · rename_i hd
        have hmem := List.mem_of_find?_eq_some h
        split at hmem
        · split at hmem <;> split at hmem <;>
            (simp only [List.mem_append, List.mem_cons, List.mem_singleton,
               List.not_mem_nil, or_false] at hmem; omega)
        · split at hmem <;>
            (simp only [List.mem_append, List.mem_cons, List.mem_singleton,
               List.not_mem_nil, or_false] at hmem; omega)
      · cases h
    · cases h

theorem matchCharLit_pos {cs : List Char} {n : Nat}
    (h : matchCharLit cs = some n) : 1 ≤ n := by
  unfold matchCharLit at h
  split at h
  · split at h
    · cases h
    · injection h with h'; omega
  · cases h
  · split at h
    · cases h
    · injection h with h'; omega
  · cases h

theorem matchStringLit_pos {cs : List Char} {n : Nat}
    (h : matchStringLit cs = some n) : 1 ≤ n := by
  unfold matchStringLit at h
  split at h
  · rw [Option.map_eq_some'] at h
    obtain ⟨k, _, hk⟩ := h
    omega
  · cases h

theorem operatorList_len : ∀ k ∈ operatorList, 1 ≤ k.length := by decide

theorem matchOperator_pos {cs : List Char} {n : Nat}
    (h : matchOperator cs = some n) : 1 ≤ n := by
  unfold matchOperator at h
  rw [Option.map_eq_some'] at h
  obtain ⟨k, hk, rfl⟩ := h
  exact operatorList_len k (List.mem_of_find?_eq_some hk)

theorem matchSeparator_pos {cs : List Char} {n : Nat}
    (h : matchSeparator cs = some n) : 1 ≤ n := by
  unfold matchSeparator at h
  split at h
  · split at h
    · injection h with h'; omega
    · cases h
  · cases h

theorem matchWhitespace_pos {cs : List Char} {n : Nat}
    (h : matchWhitespace cs = some n) : 1 ≤ n := by
  unfold matchWhitespace at h
  dsimp only at h
  split at h
  · injection h with h'; omega
  · cases h

/-- The scanner always advances by at least one character. -/
theorem nextLex_pos (prev : Option Char) (cs : List Char) :
    1 ≤ (nextLex prev cs).2 := by
  unfold nextLex
  split
  · exact matchComment_pos ‹_›
  split
  · exact matchPreproc_pos ‹_›
  split
  · exact matchKeyword_pos ‹_›
  split
  · exact matchIdent_pos ‹_›
  split
  · exact matchNumber_pos ‹_›
  split
  · exact matchCharLit_pos ‹_›
  split
  · exact matchStringLit_pos ‹_›
  split
  · exact matchOperator_pos ‹_›
  split
  · exact matchSeparator_pos ‹_›
  split
  · exact matchWhitespace_pos ‹_›
  · exact Nat.le_refl 1

/-- Unfolding equation of `scanAux` on a nonempty input. -/
theorem scanAux_succ_cons (m : Nat) (prev : Option Char) (c : Char)
    (rest : List Char) :
    scanAux (m + 1) prev (c :: rest) =
      ((nextLex prev (c :: rest)).1,
        (c :: rest).take (nextLex prev (c :: rest)).2) ::
        scanAux m
          (match ((c :: rest).take (nextLex prev (c :: rest)).2).getLast? with
           | some c2 => some c2
           | none => prev)
          ((c :: rest).drop (nextLex prev (c :: rest)).2) := rfl

/-- The matched lexemes exactly tile the input. -/
theorem scanAux_join : ∀ fuel prev cs, cs.length ≤ fuel →
    joinLex (scanAux fuel prev cs) = cs := by
  intro fuel
  induction fuel with
  | zero =>
    intro prev cs h
    have h0 : cs = [] := List.eq_nil_of_length_eq_zero (Nat.le_zero.mp h)
    subst h0
    rfl
  | succ m ih =>
    intro prev cs h
    match cs with
    | [] => rfl
    | c :: rest =>
      rw [scanAux_succ_cons]
      have hpos := nextLex_pos prev (c :: rest)
      show ((c :: rest).take (nextLex prev (c :: rest)).2) ++
          joinLex (scanAux m _ ((c :: rest).drop (nextLex prev (c :: rest)).2))
        = c :: rest
      rw [ih _ _ (by
        rw [List.length_drop]
        simp only [List.length_cons] at h ⊢
        omega)]
      exact List.take_append_drop _ _

/-- Every lexeme the scanner produces is nonempty. -/
theorem scanAux_lex_ne : ∀ fuel prev cs,
    (scanAux fuel prev cs).all (fun m => !m.2.isEmpty) = true := by
  intro fuel
  induction fuel with
  | zero => intro prev cs; rfl
  | succ m ih =>
    intro prev cs
    match cs with
    | [] => rfl
    | c :: rest =>
      rw [scanAux_succ_cons, List.all_cons]
      have hpos := nextLex_pos prev (c :: rest)
      obtain ⟨k, hk⟩ : ∃ k, (nextLex prev (c :: rest)).2 = k + 1 :=
        ⟨(nextLex prev (c :: rest)).2 - 1, by omega⟩
      have h1 : (!((c :: rest).take (nextLex prev (c :: rest)).2).isEmpty)
          = true := by
        rw [hk]; rfl
      rw [h1, ih]
      rfl

/-! ## Tokenizer line-number lemmas -/

theorem countNl_append (a b : List Char) :
    countNl (a ++ b) = countNl a + countNl b := by
  unfold countNl
  rw [List.filter_append, List.length_append]

theorem withLines_eq_filterMap : ∀ ms ln,
    withLines ln ms = (linesSpec ln ms).filterMap (fun e =>
      if e.1 ≠ Kind.WHITESPACE ∧ e.1 ≠ Kind.COMMENT
      then some ⟨e.1, ⟨e.2.1⟩, e.2.2⟩ else none) := by
  intro ms
  induction ms with
  | nil => intro ln; rfl
  | cons m ms ih =>
    intro ln
    obtain ⟨k, v⟩ := m
    rw [withLines, linesSpec, List.filterMap_cons]
    by_cases hk : k ≠ Kind.WHITESPACE ∧ k ≠ Kind.COMMENT
    · rw [if_pos hk, if_pos hk, ih]
      rfl
    · rw [if_neg hk, if_neg hk, ih]
      rfl

theorem linesSpec_get : ∀ ms ln (k : Nat),
    ((linesSpec ln ms).get? k).map (fun e => e.2.2) =
      (ms.get? k).map (fun _ => ln + countNl (joinLex (ms.take k))) := by
  intro ms
  induction ms with
  | nil => intro ln k; cases k <;> rfl
  | cons m ms ih =>
    intro ln k
    obtain ⟨kk, v⟩ := m
    cases k with
    | zero => simp [linesSpec, joinLex, countNl]
    | succ k =>
      rw [linesSpec]
      show ((linesSpec (ln + countNl v) ms).get? k).map (fun e => e.2.2) = _
      rw [ih]
      show _ = (ms.get? k).map
        (fun _ => ln + countNl (joinLex (((kk, v) :: ms).take (k + 1))))
      have hjoin : joinLex (((kk, v) :: ms).take (k + 1))
          = v ++ joinLex (ms.take k) := rfl
      rw [hjoin, countNl_append]
      cases hms : ms.get? k with
      | none => rfl
      | some e => simp [Nat.add_assoc]

theorem withLines_le : ∀ ms ln, ∀ t ∈ withLines ln ms, ln ≤ t.line := by
  intro ms
  induction ms with
  | nil => intro ln t ht; cases ht
  | cons m ms ih =>
    intro ln t ht
    obtain ⟨k, v⟩ := m
    rw [withLines] at ht
    rcases List.mem_append.mp ht with h1 | h2
    · split at h1
      · simp only [List.mem_singleton] at h1
        subst h1
        exact Nat.le_refl ln
      · cases h1
    · exact Nat.le_trans (Nat.le_add_right ln (countNl v)) (ih _ t h2)

theorem withLines_pairwise : ∀ ms ln,
    List.Pairwise (· ≤ ·) ((withLines ln ms).map Tok.line) := by
  intro ms
  induction ms with
  | nil => intro ln; exact List.Pairwise.nil
  | cons m ms ih =>
    intro ln
    obtain ⟨k, v⟩ := m
    rw [withLines, List.map_append]
    split
    · rw [List.pairwise_append]
      refine ⟨List.pairwise_singleton _ _, ih _, ?_⟩
      intro a ha b hb
      simp only [List.map_cons, List.map_nil, List.mem_singleton] at ha
      subst ha
      rw [List.mem_map] at hb
      obtain ⟨t, ht, rfl⟩ := hb
      exact Nat.le_trans (Nat.le_add_right _ _) (withLines_le ms _ t ht)
    · simp only [List.map_nil, List.nil_append]
      exact ih _

/-! ## Claim theorems -/

/-- `filterMap` distributes over `flatMap`. -/
theorem filterMap_flatMap {α β γ : Type} (l : List α) (g : α → List β)
    (f : β → Option γ) :
    (l.flatMap g).filterMap f = l.flatMap (fun a => (g a).filterMap f) := by
  induction l with
  | nil => rfl
  | cons a l ih => simp [List.flatMap_cons, List.filterMap_append, ih]

/-- **C1** (amended). The aggregator deduplicates on the key
`(line_number, lowercase(title))`; for a repeated key a later finding
replaces the incumbent exactly when the later finding HAS a `suggestion`
key and the incumbent does not — the presence of the key, not the
non-emptiness of its value, decides; otherwise the first-seen survives. -/
theorem claim_C1 (f g : PyDict) (h : dedupKey f = dedupKey g) :
    deduplicate_findings ([f] ++ [g]) =
      [if g.suggestion.isSome ∧ ¬f.suggestion.isSome then g else f] := by
  have key_eq : (dedupKey f == dedupKey g) = true := by simp [h]
  unfold deduplicate_findings
  show (dedupStep (dedupStep [] f) g).map Prod.snd = _
  have h1 : dedupStep [] f = [(dedupKey f, f)] := rfl
  rw [h1]
  unfold dedupStep
  have hfind : List.find? (fun e => e.1 == dedupKey g) [(dedupKey f, f)]
      = some (dedupKey f, f) := by
    simp [List.find?_cons, h]
  rw [hfind]
  split
  · rename_i hcond
    simp at hcond
  · rename_i e hcond
    injection hcond with he
    subst he
    by_cases hc : g.suggestion.isSome ∧ ¬f.suggestion.isSome
    · rw [if_pos hc, if_pos hc]
      simp [h]
    · rw [if_neg hc, if_neg hc]
      rfl

/-- Witness for C1: the theorem applied to the spec's own example pair. -/
theorem claim_C1_witness :
    deduplicate_findings ([c1f1] ++ [c1f2]) =
      [if c1f2.suggestion.isSome ∧ ¬c1f1.suggestion.isSome then c1f2
       else c1f1] :=
  claim_C1 c1f1 c1f2 (by decide)

/-- **C1** counterexample: on the spec's example the survivor is the
first-seen finding whose suggestion is the EMPTY string, not the
non-empty `"fix it"` — both findings have the `suggestion` key, so the
aggregator never consults the values. -/
theorem claim_C1_counterexample :
    (deduplicate_findings ([c1f1] ++ [c1f2])).map PyDict.suggestion
      = [some ""] ∧
    (deduplicate_findings ([c1f1] ++ [c1f2])).map PyDict.suggestion
      ≠ [some "fix it"] := by
  refine ⟨rfl, by decide⟩

set_option maxHeartbeats 4000000 in
/-- **C2**: the analysis entry point raises on malformed input. Tokenizing
`"int"` and parsing raises `TypeError` (the unguarded
`{self.current_token[1]}` field of `Parser.expect`'s f-string, evaluated
with `current_token = None` at end of input); likewise for
`"int main() { if (1)"` (the fall-through of `parse_statement`). Both are
Python `TypeError`s, not resource exhaustion. -/
theorem claim_C2 :
    (runParser (cL "int")).2 = .error .typeError ∧
    (runParser c2codeB).2 = .error .typeError := by
  refine ⟨rfl, rfl⟩

/-- **C3** (amended). The insecure-call check happens exactly once per
expression statement, on its FIRST token: entering
`parse_expression_statement` with the current token an `IDENTIFIER` `v` at
line `ln` extends the issue list by the table entry for `v` precisely when
`v` is in `insecure_functions`; no token consumed later by
`parse_expression` (or inside a ControlStructure's condition, which never
reaches `parse_expression_statement`) is ever checked. -/
theorem claim_C3 (fuel : Nat) (s : ParserSt) (v : String) (ln : Nat)
    (h : s.current = some ⟨.IDENTIFIER, v, ln⟩) :
    (parse_expression_statement (fuel + 1) s).1.issues =
      if v ∈ insecureFunctions then (check_insecure_function v ln s).issues
      else s.issues := by
  rw [parse_expression_statement]
  rw [h]
  dsimp only
  by_cases hv : v ∈ insecureFunctions
  · rw [if_pos hv, if_pos (show Kind.IDENTIFIER = Kind.IDENTIFIER ∧
      v ∈ insecureFunctions from ⟨rfl, hv⟩)]
    generalize check_insecure_function v ln s = s1
    split
    · rename_i s2 e heq
      show s2.issues = s1.issues
      rw [eq_fst_of heq, parse_expression_issues]
    · rename_i s2 initPt heq
      split
      · rename_i semiPt s3 heq2
        show s3.issues = s1.issues
        rw [eq_snd_of heq2, pmatch_issues, eq_fst_of heq,
            parse_expression_issues]
      · rename_i s3 heq2
        show (warnP _ _ s3).issues = s1.issues
        rw [warnP_issues, eq_snd_of heq2, pmatch_issues, eq_fst_of heq,
            parse_expression_issues]
    · rename_i s2 heq
      show (warnP _ _ s2).issues = s1.issues
      rw [warnP_issues, eq_fst_of heq, parse_expression_issues]
  · rw [if_neg hv, if_neg (show ¬(Kind.IDENTIFIER = Kind.IDENTIFIER ∧
      v ∈ insecureFunctions) from fun hc => hv hc.2)]
    split
    · rename_i s2 e heq
      show s2.issues = s.issues
      rw [eq_fst_of heq, parse_expression_issues]
    · rename_i s2 initPt heq
      split
      · rename_i semiPt s3 heq2
        show s3.issues = s.issues
        rw [eq_snd_of heq2, pmatch_issues, eq_fst_of heq,
            parse_expression_issues]
      · rename_i s3 heq2
        show (warnP _ _ s3).issues = s.issues
        rw [warnP_issues, eq_snd_of heq2, pmatch_issues, eq_fst_of heq,
            parse_expression_issues]
    · rename_i s2 heq
      show (warnP _ _ s2).issues = s.issues
      rw [warnP_issues, eq_fst_of heq, parse_expression_issues]

/-- Witness for C3: the theorem applied at a concrete state about to
consume `gets` at line 5. -/
theorem claim_C3_witness :
    (parse_expression_statement 4 c3WitSt).1.issues =
      if "gets" ∈ insecureFunctions
      then (check_insecure_function "gets" 5 c3WitSt).issues
      else c3WitSt.issues :=
  claim_C3 3 c3WitSt "gets" 5 rfl

set_option maxHeartbeats 4000000 in
/-- **C3** counterexample: in `int main() { x = gets(y); }` the insecure
identifier `gets` is consumed in expression position (it is among the
tokens, on line 1), yet the parser records NO finding — only the first
token `x` of the expression statement was checked. -/
theorem claim_C3_counterexample :
    (⟨.IDENTIFIER, "gets", 1⟩ : Tok) ∈ tokenize_code c3code ∧
    parserIssues c3code = [] := by
  refine ⟨by decide, rfl⟩

set_option maxHeartbeats 4000000 in
/-- **C5** (amended). When `gets(buffer);` is an expression statement inside
a parsed function body on line 7, the parser records exactly one issue
record — keys `function`/`line`/`fix`/`cwe`/`source` (not
`source_tag`/`line_number`), with `line = 7`, the table fix
`"use fgets()"`, CWE id `"CWE-120"`, and source value `"Custom Parser"`. -/
theorem claim_C5 :
    parserIssues c5code =
      [⟨"gets", 7, "use fgets()", "CWE-120", "Custom Parser"⟩] := rfl

set_option maxHeartbeats 4000000 in
/-- **C5** counterexample: the same statement `gets(buffer);` on line 7 at
TOP level (outside any function) produces no finding at all — the
top-level loop skips non-type-keyword tokens without any insecure-call
check — refuting the claim for arbitrary inputs containing the statement
on line 7. -/
theorem claim_C5_counterexample :
    (⟨.IDENTIFIER, "gets", 7⟩ : Tok) ∈ tokenize_code c5topCode ∧
    parserIssues c5topCode = [] := by
  refine ⟨by decide, rfl⟩

set_option maxHeartbeats 4000000 in
/-- **C8** (amended). Parsing `int main() { return 0; }` yields a `Program`
root with exactly one `FunctionDefinition` child, whose `FunctionBody` has
exactly one `Statement` child, produced by the return-statement branch;
but because `advance()` returns the parse-tree node of the FOLLOWING
token, that Statement's children are the `NUMBER 0` terminal, an
`Expression` node (holding the `;` terminal), and the `;` terminal — the
`return` keyword's node is never attached. -/
theorem claim_C8 :
    (runTree c8code).name = "Program" ∧
    (runTree c8code).children.map PTree.name = ["FunctionDefinition"] ∧
    countChildrenNamed "FunctionBody"
      (firstNamed "FunctionDefinition" (runTree c8code)) = 1 ∧
    countChildrenNamed "Statement" (firstNamed "FunctionBody"
      (firstNamed "FunctionDefinition" (runTree c8code))) = 1 ∧
    c8stmt.children.map (fun c => (c.name, c.value)) =
      [("NUMBER", some "0"), ("Expression", none), ("SEPARATOR", some ";")] := by
  refine ⟨rfl, rfl, rfl, rfl, rfl⟩

set_option maxHeartbeats 4000000 in
/-- **C8** counterexample: the first terminal child of the unique Statement
is the `NUMBER` token `0`, not the keyword `return`. -/
theorem claim_C8_counterexample :
    ((firstTerminal c8stmt).name, (firstTerminal c8stmt).value)
      = ("NUMBER", some "0") ∧
    ((firstTerminal c8stmt).name, (firstTerminal c8stmt).value)
      ≠ ("KEYWORD", some "return") := by
  refine ⟨rfl, by decide⟩

set_option maxHeartbeats 4000000 in
/-- **C9**: `char buffer[10];` is NOT recognized as an array declaration.
The lexer classifies `[` as a `SEPARATOR`, but the parser's declaration
branch (and `parse_expression`) test for an `OPERATOR` `[`; so the parse
emits the `Missing ';' in declaration` warning, builds no `ArraySize`
node, and recovers token by token — although the code's own comment says
this branch handles `char arr[10];`. -/
theorem claim_C9 :
    (⟨.SEPARATOR, "[", 1⟩ : Tok) ∈ tokenize_code c9code ∧
    countNamedF 100 "ArraySize" [runTree c9code] = 0 ∧
    "1: ❌ Error: Missing \x27;\x27 in declaration. Expected SEPARATOR (;), got SEPARATOR (\x27[\x27 if self.current_token and len(self.current_token) > 1 else \x27\x27)"
      ∈ parserWarnings c9code := by
  refine ⟨by decide, rfl, by decide⟩

/-- **C6**: on every input the tokenizer terminates (the scanner is a total
function), every regex match — emitted or skipped — consumes at least one
character, and the matched lexemes exactly partition the input: their
concatenation is the input, so no character is skipped or duplicated. -/
theorem claim_C6 (code : List Char) :
    joinLex (scan code) = code ∧
    (scan code).all (fun m => !m.2.isEmpty) = true := by
  constructor
  · exact scanAux_join code.length none code (Nat.le_refl _)
  · exact scanAux_lex_ne code.length none code

/-- **C7**: the emitted tokens' line numbers are non-decreasing; the `k`-th
match of the scan is annotated with line `1 +` the number of newline
characters in the concatenation of all earlier lexemes (including those
inside multi-character lexemes and skipped whitespace/comments); and
`tokenize_code` is exactly the non-whitespace, non-comment sublist of that
annotation, so every emitted token carries the 1-based line on which its
lexeme starts. -/
theorem claim_C7 (code : List Char) :
    List.Pairwise (· ≤ ·) ((tokenize_code code).map Tok.line) ∧
    (∀ k : Nat, ((linesSpec 1 (scan code)).get? k).map (fun e => e.2.2) =
      ((scan code).get? k).map
        (fun _ => 1 + countNl (joinLex ((scan code).take k)))) ∧
    tokenize_code code = (linesSpec 1 (scan code)).filterMap (fun e =>
      if e.1 ≠ Kind.WHITESPACE ∧ e.1 ≠ Kind.COMMENT
      then some ⟨e.1, ⟨e.2.1⟩, e.2.2⟩ else none) := by
  refine ⟨withLines_pairwise _ _, fun k => linesSpec_get _ _ _,
    withLines_eq_filterMap _ _⟩

set_option maxHeartbeats 4000000 in
/-- **C4**: the risk scan decides every pattern match independently by the
stated rule — examine the window of 2 lines before through 2 lines after
(`contextOf`) for a bounds-check signal (`hasBoundsCheck`); a tainted
referenced identifier without the signal gives a High finding, no signal
gives a Medium finding, and a present signal gives no finding — and on the
spec's examples: the unwrapped two-line input yields the High finding on
the `int y = x + 10;` line (line 2, plus the Medium array-indexing finding
on line 1), while the bounds-checked version yields no finding. -/
theorem claim_C4 :
    (∀ code : List Char,
      analyze_arithmetic_operations code =
        (arithMatches code).filterMap (fun m =>
          let lines := splitlines code
          let iv := inputVariables lines
          let usesInput : Bool :=
            (m.2.2.flatMap wordRuns).any (fun v => iv.contains v)
          let hb : Bool := hasBoundsCheck (contextOf lines m.1)
          if usesInput ∧ ¬hb then some (mkArithFinding m.2.1 m.1 "High" usesInput)
          else if ¬hb then some (mkArithFinding m.2.1 m.1 "Medium" usesInput)
          else none)) ∧
    analyze_arithmetic_operations c4ex1 =
      [mkArithFinding "Array Indexing Arithmetic" 1 "Medium" false,
       mkArithFinding "Arithmetic" 2 "High" true] ∧
    analyze_arithmetic_operations c4ex2 = [] := by
  refine ⟨?_, rfl, rfl⟩
  intro code
  unfold analyze_arithmetic_operations arithMatches
  dsimp only
  rw [filterMap_flatMap]
  refine congrArg _ (funext fun le => ?_)
  rw [filterMap_flatMap]
  refine congrArg _ (funext fun pat => ?_)
  rw [List.filterMap_map]
  congr 1

/-- **C10**: every parser-produced issue dict has only the keys
`function`/`line`/`fix`/`cwe`/`source` — no `line_number`, `title` or
`suggestion` — hence maps to the single dedup key `(None, "")`; and the
deduplicated output of ANY findings list retains at most one finding with
that key, so at most one parser finding survives aggregation no matter
how many distinct insecure calls were detected. -/
theorem claim_C10 :
    (∀ i : Issue, (Issue.toDict i).line_number = none ∧
      (Issue.toDict i).title = none ∧ (Issue.toDict i).suggestion = none ∧
      dedupKey (Issue.toDict i) = (none, "")) ∧
    (∀ l : List PyDict,
      (deduplicate_findings l).countP
        (fun d => dedupKey d == ((none : Option Nat), "")) ≤ 1) := by
  constructor
  · intro i
    exact ⟨rfl, rfl, rfl, rfl⟩
  · intro l
    have hg := foldl_dedupStep_good l [] goodAcc_nil
    exact goodAcc_countP_le_one _ hg _

end SafeCompile
